import Mathlib

/-!
Verification of the FSRS-style spaced-repetition core of the
english-learning-app repository.

The embedding follows the Python sources:
  * `Dictation`  — src/dictation.py (the live scheduling engine),
  * `MigrateFix` — src/migrate_fsrs_fix.py (the corrected migration variant),
  * `Server`     — src/server.py, the api_session_complete endpoint body.

Floats are modelled as real numbers; timestamps as rationals measured in
days (Python datetimes subtract to timedeltas whose `.days` attribute is
the floor of the day difference and whose `total_seconds()/86400` is the
exact fractional day difference); integer fields as integers.
-/

/-- The persisted per-word memory state (the FSRS fields of the `Card`
dataclass in src/dictation.py and of the `Progress` row used by
src/server.py; presentation-only fields such as the word text, phonetic
and per-session attempt data are not part of the scheduling state and
are omitted). -/
structure Card where
  difficulty : ℝ
  stability : ℝ
  state : ℤ
  reps : ℤ
  lapses : ℤ
  last_review : Option ℚ
  due : Option ℚ

/-- The 17-element FSRS weight vector, identical in src/dictation.py
line 65 and src/migrate_fsrs_fix.py lines 21-22. -/
def FSRS_W : List ℝ :=
  [0.4, 0.6, 2.4, 5.8, 4.93, 0.94, 0.86, 0.01, 1.49, 0.14, 0.94, 2.18,
   0.05, 0.34, 1.26, 0.29, 2.61]

/-- Index into the weight vector, `FSRS_W[i]` in the Python sources. -/
noncomputable def W (i : ℕ) : ℝ := FSRS_W.getD i 0

/-- Python's built-in `round`: round half to even (banker's rounding). -/
noncomputable def pyround (x : ℝ) : ℤ :=
  if Int.fract x = 1 / 2 then (if Even ⌊x⌋ then ⌊x⌋ else ⌊x⌋ + 1) else round x

namespace Dictation

/-- src/dictation.py `init_difficulty` (lines 185-187). -/
noncomputable def init_difficulty (grade : ℤ) : ℝ :=
  max 1 (min 10 (W 4 - ((grade : ℝ) - 3) * W 5))

/-- src/dictation.py `init_stability` (lines 190-206): the lookup table
for already-taught words, defaulting to 1.0. -/
noncomputable def init_stability (grade : ℤ) : ℝ :=
  if grade = 1 then 1.0
  else if grade = 2 then 3.0
  else if grade = 3 then 7.0
  else if grade = 4 then 14.0
  else 1.0

/-- src/dictation.py `next_difficulty` (lines 209-212). -/
noncomputable def next_difficulty (d : ℝ) (grade : ℤ) : ℝ :=
  max 1 (min 10 (W 7 * init_difficulty 3 + (1 - W 7) * (d - W 6 * ((grade : ℝ) - 3))))

/-- src/dictation.py `next_recall_stability` (lines 215-225).  The source
writes the exponential base as the literal 2.71828, not `math.exp`. -/
noncomputable def next_recall_stability (d s r : ℝ) (grade : ℤ) : ℝ :=
  let hard_penalty : ℝ := if grade = 2 then W 15 else 1
  let easy_bonus : ℝ := if grade = 4 then W 16 else 1
  s * (1 + (2.71828 : ℝ) ^ W 8 * (11 - d) * s ^ (-W 9) *
    ((2.71828 : ℝ) ^ (W 10 * (1 - r)) - 1) * hard_penalty * easy_bonus)

/-- src/dictation.py `next_forget_stability` (lines 228-230).  Note: no
floor at 1.0 here, unlike the migration variant. -/
noncomputable def next_forget_stability (d s r : ℝ) : ℝ :=
  W 11 * d ^ (-W 12) * ((s + 1) ^ W 13 - 1) * (2.71828 : ℝ) ^ (W 14 * (1 - r))

/-- src/dictation.py `retrievability` (lines 233-237). -/
noncomputable def retrievability (s t : ℝ) : ℝ :=
  if s ≤ 0 then 0 else (0.9 : ℝ) ^ (t / s)

/-- src/dictation.py `next_interval` (lines 240-260): interval for the
desired retention, clamped to [1, 365] days. -/
noncomputable def next_interval (s : ℝ) (desired_r : ℝ := 0.9) : ℤ :=
  if s ≤ 0 then 1
  else
    let FACTOR : ℝ := 19.0 / 81.0
    let DECAY : ℝ := -0.5
    max 1 (min 365 (pyround ((s / FACTOR) * (desired_r ^ ((1 : ℝ) / DECAY) - 1))))

/-- src/dictation.py `fsrs_schedule` (lines 263-318).  The Python code
mutates the card sequentially (`last_review`, `reps`, then the branch on
`state`, then `due`); the record below collects the same field updates.
`elapsed = (now - due_time).days` is the floor of the day difference. -/
noncomputable def fsrs_schedule (now : ℚ) (card : Card) (grade : ℤ) : Card :=
  if card.state = 0 then
    let stab := init_stability grade
    { card with
      last_review := some now
      reps := card.reps + 1
      difficulty := init_difficulty grade
      stability := stab
      state := if grade < 3 then 1 else 2
      due := some (now + (next_interval stab : ℚ)) }
  else
    let elapsed : ℤ := match card.due with
      | some d => ⌊now - d⌋
      | none => 0
    let r := retrievability card.stability ((max 0 elapsed : ℤ) : ℝ)
    let diff := next_difficulty card.difficulty grade
    if grade = 1 then
      let stab := next_forget_stability diff card.stability r
      { card with
        last_review := some now
        reps := card.reps + 1
        difficulty := diff
        stability := stab
        lapses := card.lapses + 1
        state := 1
        due := some (now + (next_interval stab : ℚ)) }
    else
      let stab := next_recall_stability diff card.stability r grade
      { card with
        last_review := some now
        reps := card.reps + 1
        difficulty := diff
        stability := stab
        state := 2
        due := some (now + (next_interval stab : ℚ)) }

/-- src/dictation.py `grade_from_attempts` (lines 565-591). -/
def grade_from_attempts (attempts : ℤ) (correct : Bool) (skipped : Bool := false) : ℤ :=
  if skipped || !correct then 1
  else if attempts = 1 then 4
  else if attempts = 2 then 3
  else 2

/-- src/dictation.py `get_card_retrievability` (lines 594-616):
`elapsed_days = (now - last_review).total_seconds() / 86400` is the
exact fractional day difference. -/
noncomputable def get_card_retrievability (now : ℚ) (card : Card) : ℝ :=
  match card.last_review with
  | none => 1.0
  | some lr =>
    if card.state = 0 ∨ card.stability ≤ 0 then 1.0
    else retrievability card.stability (max 0 ((now - lr : ℚ) : ℝ))

/-- The `(card, r)` pairs collected by src/dictation.py `get_due_cards`
(lines 638-646): reviewed cards (`state != 0`) with a set due date that
has passed, tagged with their current retrievability. -/
noncomputable def due_pairs (now : ℚ) (cards : List Card) : List (Card × ℝ) :=
  cards.filterMap fun c =>
    if c.state = 0 then none
    else match c.due with
      | none => none
      | some d => if d ≤ now then some (c, get_card_retrievability now c) else none

/-- Comparison used by the `sort(key=lambda x: x[1])` call in
src/dictation.py `get_due_cards` (line 649): ascending retrievability. -/
def pairLE (a b : Card × ℝ) : Prop := a.2 ≤ b.2

noncomputable instance : DecidableRel pairLE :=
  fun a b => inferInstanceAs (Decidable (a.2 ≤ b.2))

instance : IsTotal (Card × ℝ) pairLE := ⟨fun a b => le_total a.2 b.2⟩

instance : IsTrans (Card × ℝ) pairLE := ⟨fun _ _ _ => le_trans⟩

/-- The due list of src/dictation.py `get_due_cards` after the stable
sort by ascending retrievability (line 649). -/
noncomputable def sorted_due_pairs (now : ℚ) (cards : List Card) : List (Card × ℝ) :=
  List.insertionSort pairLE (due_pairs now cards)

/-- src/dictation.py `get_due_cards` (lines 619-658): take up to `limit`
due cards in ascending retrievability order, then fill the remaining
slots with new cards. -/
noncomputable def get_due_cards (now : ℚ) (cards : List Card) (limit : ℕ) : List Card :=
  let due_cards := (sorted_due_pairs now cards).map Prod.fst
  let new_cards := cards.filter fun c => c.state = 0
  let result := due_cards.take limit
  result ++ new_cards.take (limit - result.length)

end Dictation

namespace MigrateFix

/-- src/migrate_fsrs_fix.py `init_difficulty` (lines 24-25). -/
noncomputable def init_difficulty (grade : ℤ) : ℝ :=
  max 1 (min 10 (W 4 - ((grade : ℝ) - 3) * W 5))

/-- src/migrate_fsrs_fix.py `init_stability` (lines 27-28). -/
noncomputable def init_stability (grade : ℤ) : ℝ :=
  if grade = 1 then 1.0
  else if grade = 2 then 3.0
  else if grade = 3 then 7.0
  else if grade = 4 then 14.0
  else 1.0

/-- src/migrate_fsrs_fix.py `next_recall_stability` (lines 34-41): the
corrected variant uses `math.exp` and floors the result at 1.0. -/
noncomputable def next_recall_stability (d s r : ℝ) (grade : ℤ) : ℝ :=
  let hard_penalty : ℝ := if grade = 2 then W 15 else 1
  let easy_bonus : ℝ := if grade = 4 then W 16 else 1
  max 1.0 (s * (1 + Real.exp (W 8) * (11 - d) * s ^ (-W 9) *
    (Real.exp (W 10 * (1 - r)) - 1) * hard_penalty * easy_bonus))

/-- src/migrate_fsrs_fix.py `next_forget_stability` (lines 43-45): the
corrected variant floors the post-lapse stability at 1.0. -/
noncomputable def next_forget_stability (d s r : ℝ) : ℝ :=
  max 1.0 (W 11 * d ^ (-W 12) * ((s + 1) ^ W 13 - 1) * Real.exp (W 14 * (1 - r)))

/-- src/migrate_fsrs_fix.py `retrievability` (lines 47-50). -/
noncomputable def retrievability (s t : ℝ) : ℝ :=
  if s ≤ 0 then 0 else (0.9 : ℝ) ^ (t / s)

/-- src/migrate_fsrs_fix.py `next_interval` (lines 52-58): same closed
form as the live engine but capped at 60 days. -/
noncomputable def next_interval (s : ℝ) (desired_r : ℝ := 0.9) : ℤ :=
  if s ≤ 0 then 1
  else
    let FACTOR : ℝ := 19.0 / 81.0
    let DECAY : ℝ := -0.5
    max 1 (min 60 (pyround ((s / FACTOR) * (desired_r ^ ((1 : ℝ) / DECAY) - 1))))

end MigrateFix

namespace Server

/-- The FSRS update performed by src/server.py `api_session_complete`
(lines 889-956): grade the outcome with `grade_from_attempts`, then
either update an existing progress row (using the prior `due` as the
elapsed-time reference, adding an extra lapse when the word was
skipped) or initialize a new one.  The stored row is returned as a
`Card`. -/
noncomputable def api_session_complete (now : ℚ) (progress : Option Card)
    (attempts : ℤ) (correct skipped : Bool) : Card :=
  let grade := Dictation.grade_from_attempts attempts correct skipped
  match progress with
  | some p =>
    let elapsed : ℤ := match p.due with
      | some d => ⌊now - d⌋
      | none => 0
    let r := Dictation.retrievability p.stability ((max 0 elapsed : ℤ) : ℝ)
    let diff := Dictation.next_difficulty p.difficulty grade
    let stab := if grade = 1 then Dictation.next_forget_stability diff p.stability r
      else Dictation.next_recall_stability diff p.stability r grade
    let lapses0 := if grade = 1 then p.lapses + 1 else p.lapses
    let lapses := if skipped then lapses0 + 1 else lapses0
    let state : ℤ := if grade = 1 then 1 else 2
    { difficulty := diff
      stability := stab
      state := state
      reps := p.reps + 1
      lapses := lapses
      last_review := some now
      due := some (now + (Dictation.next_interval stab : ℚ)) }
  | none =>
    let lapses : ℤ := if !correct || skipped then 1 else 0
    let stab := Dictation.init_stability grade
    { difficulty := Dictation.init_difficulty grade
      stability := stab
      state := if grade < 3 then 1 else 2
      reps := 1
      lapses := lapses
      last_review := some now
      due := some (now + (Dictation.next_interval stab : ℚ)) }

end Server

/-! ### Numeric values of the weights -/

theorem W_4 : W 4 = 4.93 := rfl

theorem W_5 : W 5 = 0.94 := rfl

theorem W_6 : W 6 = 0.86 := rfl

theorem W_7 : W 7 = 0.01 := rfl

theorem W_8 : W 8 = 1.49 := rfl

theorem W_9 : W 9 = 0.14 := rfl

theorem W_10 : W 10 = 0.94 := rfl

theorem W_11 : W 11 = 2.18 := rfl

theorem W_12 : W 12 = 0.05 := rfl

theorem W_13 : W 13 = 0.34 := rfl

theorem W_14 : W 14 = 1.26 := rfl

theorem W_15 : W 15 = 0.29 := rfl

theorem W_16 : W 16 = 2.61 := rfl

/-! ### Clamp, exponential-base and retrievability helpers -/

theorem one_le_clamp (x : ℝ) : 1 ≤ max 1 (min 10 x) := le_max_left _ _

theorem clamp_le_ten (x : ℝ) : max 1 (min 10 x) ≤ 10 :=
  max_le (by norm_num) (min_le_left _ _)

theorem EPow_pos (x : ℝ) : 0 < (2.71828 : ℝ) ^ x :=
  Real.rpow_pos_of_pos (by norm_num) x

theorem one_le_EPow {x : ℝ} (hx : 0 ≤ x) : 1 ≤ (2.71828 : ℝ) ^ x := by
  calc (1 : ℝ) = (2.71828 : ℝ) ^ (0 : ℝ) := (Real.rpow_zero _).symm
  _ ≤ (2.71828 : ℝ) ^ x := Real.rpow_le_rpow_of_exponent_le (by norm_num) hx

theorem one_lt_EPow {x : ℝ} (hx : 0 < x) : 1 < (2.71828 : ℝ) ^ x := by
  calc (1 : ℝ) = (2.71828 : ℝ) ^ (0 : ℝ) := (Real.rpow_zero _).symm
  _ < (2.71828 : ℝ) ^ x := Real.rpow_lt_rpow_of_exponent_lt (by norm_num) hx

theorem retrievability_nonneg (s t : ℝ) : 0 ≤ Dictation.retrievability s t := by
  unfold Dictation.retrievability
  split_ifs
  · exact le_refl 0
  · exact Real.rpow_nonneg (by norm_num) _

theorem retrievability_le_one (s : ℝ) {t : ℝ} (ht : 0 ≤ t) :
    Dictation.retrievability s t ≤ 1 := by
  unfold Dictation.retrievability
  split_ifs with h
  · norm_num
  · push_neg at h
    exact Real.rpow_le_one (by norm_num) (by norm_num) (div_nonneg ht h.le)

/-! ### Properties of Python rounding -/

theorem pyround_le (x : ℝ) : (pyround x : ℝ) ≤ x + 1 / 2 := by
  unfold pyround
  have hfl := Int.floor_add_fract x
  split_ifs with h1 h2
  · linarith [Int.floor_le x]
  · push_cast
    linarith [hfl, h1]
  · have habs := abs_sub_round x
    rw [abs_le] at habs
    linarith [habs.1]

theorem le_pyround (x : ℝ) : x - 1 / 2 ≤ (pyround x : ℝ) := by
  unfold pyround
  have hfl := Int.floor_add_fract x
  split_ifs with h1 h2
  · linarith [hfl, h1]
  · push_cast
    linarith [hfl, h1]
  · have habs := abs_sub_round x
    rw [abs_le] at habs
    linarith [habs.2]

theorem pyround_mono {x y : ℝ} (h : x ≤ y) : pyround x ≤ pyround y := by
  by_contra hc
  push_neg at hc
  have h1 : (pyround y : ℝ) + 1 ≤ (pyround x : ℝ) := by
    exact_mod_cast Int.add_one_le_iff.mpr hc
  have h2 := le_pyround y
  have h3 := pyround_le x
  have hxy : y ≤ x := by linarith
  have hxyeq : x = y := le_antisymm h hxy
  subst hxyeq
  exact absurd hc (lt_irrefl _)

/-! ### The closed form of the interval computation -/

theorem interval_factor : (0.9 : ℝ) ^ ((1 : ℝ) / (-0.5)) - 1 = 19 / 81 := by
  have h1 : ((1 : ℝ) / (-0.5)) = ((-2 : ℤ) : ℝ) := by norm_num
  rw [h1, Real.rpow_intCast]
  rw [zpow_neg]
  norm_num

theorem next_interval_eq (s : ℝ) :
    Dictation.next_interval s = if s ≤ 0 then 1 else max 1 (min 365 (pyround s)) := by
  unfold Dictation.next_interval
  split_ifs with h
  · rfl
  · have harg : s / (19.0 / 81.0) * ((0.9 : ℝ) ^ ((1 : ℝ) / (-0.5)) - 1) = s := by
      rw [interval_factor]
      norm_num
    simp only [harg]

theorem mig_next_interval_eq (s : ℝ) :
    MigrateFix.next_interval s = if s ≤ 0 then 1 else max 1 (min 60 (pyround s)) := by
  unfold MigrateFix.next_interval
  split_ifs with h
  · rfl
  · have harg : s / (19.0 / 81.0) * ((0.9 : ℝ) ^ ((1 : ℝ) / (-0.5)) - 1) = s := by
      rw [interval_factor]
      norm_num
    simp only [harg]

/-! ### Recall- and forget-stability helpers -/

theorem hard_penalty_pos (grade : ℤ) : 0 < (if grade = 2 then W 15 else (1 : ℝ)) := by
  split_ifs
  · rw [W_15]; norm_num
  · norm_num

theorem easy_bonus_pos (grade : ℤ) : 0 < (if grade = 4 then W 16 else (1 : ℝ)) := by
  split_ifs
  · rw [W_16]; norm_num
  · norm_num

theorem recall_factor_nonneg {d s r : ℝ} (hd : d ≤ 10) (hs : 0 < s) (hr : r ≤ 1)
    (grade : ℤ) :
    0 ≤ (2.71828 : ℝ) ^ W 8 * (11 - d) * s ^ (-W 9) *
      ((2.71828 : ℝ) ^ (W 10 * (1 - r)) - 1) *
      (if grade = 2 then W 15 else (1 : ℝ)) * (if grade = 4 then W 16 else (1 : ℝ)) := by
  have h1 : (0 : ℝ) ≤ (2.71828 : ℝ) ^ W 8 := (EPow_pos _).le
  have h2 : (0 : ℝ) ≤ 11 - d := by linarith
  have h3 : (0 : ℝ) ≤ s ^ (-W 9) := (Real.rpow_pos_of_pos hs _).le
  have h4 : (0 : ℝ) ≤ (2.71828 : ℝ) ^ (W 10 * (1 - r)) - 1 := by
    have hx : (0 : ℝ) ≤ W 10 * (1 - r) := by
      rw [W_10]
      nlinarith
    linarith [one_le_EPow hx]
  exact mul_nonneg (mul_nonneg (mul_nonneg (mul_nonneg (mul_nonneg h1 h2) h3) h4)
    (hard_penalty_pos grade).le) (easy_bonus_pos grade).le

theorem recall_factor_pos {d s r : ℝ} (hd : d ≤ 10) (hs : 0 < s) (hr : r < 1)
    (grade : ℤ) :
    0 < (2.71828 : ℝ) ^ W 8 * (11 - d) * s ^ (-W 9) *
      ((2.71828 : ℝ) ^ (W 10 * (1 - r)) - 1) *
      (if grade = 2 then W 15 else (1 : ℝ)) * (if grade = 4 then W 16 else (1 : ℝ)) := by
  have h1 : (0 : ℝ) < (2.71828 : ℝ) ^ W 8 := EPow_pos _
  have h2 : (0 : ℝ) < 11 - d := by linarith
  have h3 : (0 : ℝ) < s ^ (-W 9) := Real.rpow_pos_of_pos hs _
  have h4 : (0 : ℝ) < (2.71828 : ℝ) ^ (W 10 * (1 - r)) - 1 := by
    have hx : (0 : ℝ) < W 10 * (1 - r) := by
      rw [W_10]
      nlinarith
    linarith [one_lt_EPow hx]
  exact mul_pos (mul_pos (mul_pos (mul_pos (mul_pos h1 h2) h3) h4)
    (hard_penalty_pos grade)) (easy_bonus_pos grade)

theorem next_recall_stability_ge {d s r : ℝ} (hd : d ≤ 10) (hs : 0 < s) (hr : r ≤ 1)
    (grade : ℤ) : s ≤ Dictation.next_recall_stability d s r grade := by
  have hA := recall_factor_nonneg hd hs hr grade
  simp only [Dictation.next_recall_stability]
  nlinarith

theorem next_recall_stability_gt {d s r : ℝ} (hd : d ≤ 10) (hs : 0 < s) (hr : r < 1)
    (grade : ℤ) : s < Dictation.next_recall_stability d s r grade := by
  have hA := recall_factor_pos hd hs hr grade
  simp only [Dictation.next_recall_stability]
  nlinarith

theorem next_recall_stability_pos {d s r : ℝ} (hd : d ≤ 10) (hs : 0 < s) (hr : r ≤ 1)
    (grade : ℤ) : 0 < Dictation.next_recall_stability d s r grade :=
  lt_of_lt_of_le hs (next_recall_stability_ge hd hs hr grade)

theorem next_recall_stability_at_one {d s : ℝ} (grade : ℤ) :
    Dictation.next_recall_stability d s 1 grade = s := by
  simp only [Dictation.next_recall_stability]
  have h0 : W 10 * (1 - 1) = 0 := by ring
  rw [h0, Real.rpow_zero]
  ring

theorem mig_next_recall_stability_ge {d s r : ℝ} (hd : d ≤ 10) (hs : 0 < s) (hr : r ≤ 1)
    (grade : ℤ) : s ≤ MigrateFix.next_recall_stability d s r grade := by
  have h1 : (0 : ℝ) ≤ Real.exp (W 8) := (Real.exp_pos _).le
  have h2 : (0 : ℝ) ≤ 11 - d := by linarith
  have h3 : (0 : ℝ) ≤ s ^ (-W 9) := (Real.rpow_pos_of_pos hs _).le
  have h4 : (0 : ℝ) ≤ Real.exp (W 10 * (1 - r)) - 1 := by
    have hx : (0 : ℝ) ≤ W 10 * (1 - r) := by
      rw [W_10]
      nlinarith
    linarith [Real.one_le_exp hx]
  have hA := mul_nonneg (mul_nonneg (mul_nonneg (mul_nonneg (mul_nonneg h1 h2) h3) h4)
    (hard_penalty_pos grade).le) (easy_bonus_pos grade).le
  simp only [MigrateFix.next_recall_stability]
  have hinner : s ≤ s * (1 + Real.exp (W 8) * (11 - d) * s ^ (-W 9) *
      (Real.exp (W 10 * (1 - r)) - 1) *
      (if grade = 2 then W 15 else (1 : ℝ)) * (if grade = 4 then W 16 else (1 : ℝ))) := by
    nlinarith
  exact le_trans hinner (le_max_right _ _)

theorem mig_next_recall_stability_gt {d s r : ℝ} (hd : d ≤ 10) (hs : 0 < s) (hr : r < 1)
    (grade : ℤ) : s < MigrateFix.next_recall_stability d s r grade := by
  have h1 : (0 : ℝ) < Real.exp (W 8) := Real.exp_pos _
  have h2 : (0 : ℝ) < 11 - d := by linarith
  have h3 : (0 : ℝ) < s ^ (-W 9) := Real.rpow_pos_of_pos hs _
  have h4 : (0 : ℝ) < Real.exp (W 10 * (1 - r)) - 1 := by
    have hx : (0 : ℝ) < W 10 * (1 - r) := by
      rw [W_10]
      nlinarith
    have := Real.exp_lt_exp.mpr hx
    rw [Real.exp_zero] at this
    linarith
  have hA := mul_pos (mul_pos (mul_pos (mul_pos (mul_pos h1 h2) h3) h4)
    (hard_penalty_pos grade)) (easy_bonus_pos grade)
  simp only [MigrateFix.next_recall_stability]
  have hinner : s < s * (1 + Real.exp (W 8) * (11 - d) * s ^ (-W 9) *
      (Real.exp (W 10 * (1 - r)) - 1) *
      (if grade = 2 then W 15 else (1 : ℝ)) * (if grade = 4 then W 16 else (1 : ℝ))) := by
    nlinarith
  exact lt_of_lt_of_le hinner (le_max_right _ _)

theorem next_forget_stability_pos {d s : ℝ} (hd : 1 ≤ d) (hs : 0 < s) (r : ℝ) :
    0 < Dictation.next_forget_stability d s r := by
  simp only [Dictation.next_forget_stability]
  have h1 : (0 : ℝ) < W 11 := by rw [W_11]; norm_num
  have h2 : (0 : ℝ) < d ^ (-W 12) :=
    Real.rpow_pos_of_pos (lt_of_lt_of_le one_pos hd) _
  have h3 : (0 : ℝ) < (s + 1) ^ W 13 - 1 := by
    have hlt : (1 : ℝ) ^ W 13 < (s + 1) ^ W 13 :=
      Real.rpow_lt_rpow (by norm_num) (by linarith) (by rw [W_13]; norm_num)
    rw [Real.one_rpow] at hlt
    linarith
  exact mul_pos (mul_pos (mul_pos h1 h2) h3) (EPow_pos _)

/-! ### Claim theorems -/

/-- C4: for every card, grade and time, the difficulty of the scheduled
card lies in [1, 10]; equivalently `init_difficulty` and
`next_difficulty` always return values in [1, 10]. -/
theorem C4_difficulty_in_range :
    (∀ (now : ℚ) (card : Card) (grade : ℤ),
      1 ≤ (Dictation.fsrs_schedule now card grade).difficulty ∧
      (Dictation.fsrs_schedule now card grade).difficulty ≤ 10) ∧
    (∀ grade : ℤ,
      1 ≤ Dictation.init_difficulty grade ∧ Dictation.init_difficulty grade ≤ 10) ∧
    (∀ (d : ℝ) (grade : ℤ),
      1 ≤ Dictation.next_difficulty d grade ∧ Dictation.next_difficulty d grade ≤ 10) := by
  refine ⟨?_, ?_, ?_⟩
  · intro now card grade
    simp only [Dictation.fsrs_schedule]
    split_ifs <;> exact ⟨one_le_clamp _, clamp_le_ten _⟩
  · intro grade
    exact ⟨one_le_clamp _, clamp_le_ten _⟩
  · intro d grade
    exact ⟨one_le_clamp _, clamp_le_ten _⟩

/-- C5: `grade_from_attempts` returns Again (1) when skipped or wrong,
Easy (4) on a first-try success, Good (3) on a second-try success and
Hard (2) on a third-or-later success; in particular
`grade_from_attempts 2 True False = 3` and
`grade_from_attempts 1 False True = 1`. -/
theorem C5_grade_from_attempts :
    (∀ (attempts : ℤ) (correct skipped : Bool), 1 ≤ attempts → attempts ≤ 3 →
      ((skipped = true ∨ correct = false) →
        Dictation.grade_from_attempts attempts correct skipped = 1) ∧
      (skipped = false → correct = true →
        ((attempts = 1 → Dictation.grade_from_attempts attempts correct skipped = 4) ∧
         (attempts = 2 → Dictation.grade_from_attempts attempts correct skipped = 3) ∧
         (3 ≤ attempts → Dictation.grade_from_attempts attempts correct skipped = 2)))) ∧
    Dictation.grade_from_attempts 2 true false = 3 ∧
    Dictation.grade_from_attempts 1 false true = 1 := by
  refine ⟨?_, by decide, by decide⟩
  intro attempts correct skipped h1 h3
  constructor
  · rintro (rfl | rfl) <;> simp [Dictation.grade_from_attempts]
  · rintro rfl rfl
    refine ⟨?_, ?_, ?_⟩
    · rintro rfl; decide
    · rintro rfl; decide
    · intro hge
      have hne1 : attempts ≠ 1 := by omega
      have hne2 : attempts ≠ 2 := by omega
      simp [Dictation.grade_from_attempts, hne1, hne2]

/-- C5 witness: the general part of C5 instantiated at attempts = 2,
correct = true, skipped = false. -/
theorem C5_grade_from_attempts_witness :
    ((false = true ∨ true = false) → Dictation.grade_from_attempts 2 true false = 1) ∧
    (false = false → true = true →
      (((2 : ℤ) = 1 → Dictation.grade_from_attempts 2 true false = 4) ∧
       ((2 : ℤ) = 2 → Dictation.grade_from_attempts 2 true false = 3) ∧
       ((3 : ℤ) ≤ 2 → Dictation.grade_from_attempts 2 true false = 2))) :=
  C5_grade_from_attempts.1 2 true false (by norm_num) (by norm_num)

/-- C7: `next_interval` at the default desired retrievability 0.9 is
monotone non-decreasing in stability, across the nonpositive-stability
branch and the clamp to [1, 365]. -/
theorem C7_next_interval_monotone :
    ∀ s1 s2 : ℝ, s1 ≤ s2 → Dictation.next_interval s1 ≤ Dictation.next_interval s2 := by
  intro s1 s2 h
  rw [next_interval_eq, next_interval_eq]
  split_ifs with h1 h2 h2
  · exact le_refl 1
  · exact le_max_left _ _
  · exact absurd (le_trans h h2) h1
  · have hp := pyround_mono h
    omega

/-- C7 witness: monotonicity at the concrete pair (1, 2). -/
theorem C7_next_interval_monotone_witness :
    Dictation.next_interval 1 ≤ Dictation.next_interval 2 :=
  C7_next_interval_monotone 1 2 (by norm_num)

/-- C8: retrievability lies in [0, 1] for nonnegative elapsed time,
equals 1 at zero elapsed time for positive stability, equals 0 for zero
stability, and the read-only card utility returns 1 for New cards. -/
theorem C8_retrievability_range :
    (∀ (s t : ℝ), 0 ≤ t →
      0 ≤ Dictation.retrievability s t ∧ Dictation.retrievability s t ≤ 1) ∧
    (∀ s : ℝ, 0 < s → Dictation.retrievability s 0 = 1) ∧
    (∀ t : ℝ, 0 < t → Dictation.retrievability 0 t = 0) ∧
    (∀ (now : ℚ) (card : Card), card.state = 0 →
      Dictation.get_card_retrievability now card = 1) := by
  refine ⟨fun s t ht => ⟨retrievability_nonneg s t, retrievability_le_one s ht⟩, ?_, ?_, ?_⟩
  · intro s hs
    unfold Dictation.retrievability
    rw [if_neg (not_le.mpr hs), zero_div, Real.rpow_zero]
  · intro t ht
    unfold Dictation.retrievability
    rw [if_pos le_rfl]
  · intro now card h
    unfold Dictation.get_card_retrievability
    cases hlr : card.last_review with
    | none => norm_num
    | some lr =>
      simp only [h]
      norm_num

/-- C8 witness: the four parts of C8 at concrete inputs. -/
theorem C8_retrievability_range_witness :
    (0 ≤ Dictation.retrievability 2 3 ∧ Dictation.retrievability 2 3 ≤ 1) ∧
    Dictation.retrievability 2 0 = 1 ∧
    Dictation.retrievability 0 1 = 0 ∧
    Dictation.get_card_retrievability 0 ⟨0, 0, 0, 0, 0, none, none⟩ = 1 :=
  ⟨C8_retrievability_range.1 2 3 (by norm_num),
   C8_retrievability_range.2.1 2 (by norm_num),
   C8_retrievability_range.2.2.1 1 (by norm_num),
   C8_retrievability_range.2.2.2 0 ⟨0, 0, 0, 0, 0, none, none⟩ rfl⟩

/-- Modelled from the words of claim C9 (refinement): the interval
computation reduced to its closed form, `min(cap, max(1, round(s)))`
for positive stability and 1 otherwise. -/
noncomputable def next_interval_spec (cap : ℤ) (s : ℝ) : ℤ :=
  if s ≤ 0 then 1 else min cap (max 1 (pyround s))

/-- C9: the closed-form `(s / (19/81)) * (0.9 ^ (1 / (-0.5)) - 1)` simplifies
exactly to `s`, so `next_interval` equals `min(cap, max(1, round(s)))`
with cap 365 in the live engine and cap 60 in the corrected migration
variant, and returns 1 for nonpositive stability. -/
theorem C9_next_interval_closed_form :
    (∀ s : ℝ, Dictation.next_interval s = next_interval_spec 365 s) ∧
    (∀ s : ℝ, MigrateFix.next_interval s = next_interval_spec 60 s) := by
  constructor
  · intro s
    rw [next_interval_eq]
    unfold next_interval_spec
    split_ifs with h
    · rfl
    · omega
  · intro s
    rw [mig_next_interval_eq]
    unfold next_interval_spec
    split_ifs with h
    · rfl
    · omega

/-- Lower clamp bound restated on `next_difficulty`. -/
theorem one_le_next_difficulty (d : ℝ) (grade : ℤ) :
    1 ≤ Dictation.next_difficulty d grade := by
  unfold Dictation.next_difficulty
  exact one_le_clamp _

/-- Upper clamp bound restated on `next_difficulty`. -/
theorem next_difficulty_le_ten (d : ℝ) (grade : ℤ) :
    Dictation.next_difficulty d grade ≤ 10 := by
  unfold Dictation.next_difficulty
  exact clamp_le_ten _

/-- Positivity of the initial-stability lookup table for every grade. -/
theorem init_stability_pos (grade : ℤ) : 0 < Dictation.init_stability grade := by
  unfold Dictation.init_stability
  split_ifs <;> norm_num

/-- C3: scheduling preserves the invariant that a non-New card has
positive stability: the scheduled card always leaves the New state with
positive stability (given a well-formed input card), `init_stability` is
positive for every grade, and the recall and forget updates return
positive stability from positive stability, difficulty in [1,10] and
retrievability in [0,1]. -/
theorem C3_stability_positive :
    (∀ (now : ℚ) (card : Card) (grade : ℤ), card.state = 0 ∨ 0 < card.stability →
      (Dictation.fsrs_schedule now card grade).state ≠ 0 ∧
      0 < (Dictation.fsrs_schedule now card grade).stability) ∧
    (∀ grade : ℤ, 0 < Dictation.init_stability grade) ∧
    (∀ (d s r : ℝ) (grade : ℤ), 0 < s → 1 ≤ d → d ≤ 10 → 0 ≤ r → r ≤ 1 →
      0 < Dictation.next_recall_stability d s r grade) ∧
    (∀ (d s r : ℝ), 0 < s → 1 ≤ d → d ≤ 10 → 0 ≤ r → r ≤ 1 →
      0 < Dictation.next_forget_stability d s r) := by
  refine ⟨?_, init_stability_pos, ?_, ?_⟩
  · intro now card grade h
    simp only [Dictation.fsrs_schedule]
    split_ifs with h0 hlt hg
    · exact ⟨by norm_num, init_stability_pos grade⟩
    · exact ⟨by norm_num, init_stability_pos grade⟩
    · refine ⟨by norm_num, ?_⟩
      show 0 < Dictation.next_forget_stability _ card.stability _
      exact next_forget_stability_pos (one_le_next_difficulty _ _) (h.resolve_left h0) _
    · refine ⟨by norm_num, ?_⟩
      show 0 < Dictation.next_recall_stability _ card.stability _ grade
      refine next_recall_stability_pos (next_difficulty_le_ten _ _) (h.resolve_left h0) ?_ grade
      exact retrievability_le_one _ (Int.cast_nonneg.mpr (le_max_left 0 _))
  · intro d s r grade hs hd1 hd hr0 hr1
    exact next_recall_stability_pos hd hs hr1 grade
  · intro d s r hs hd1 hd hr0 hr1
    exact next_forget_stability_pos hd1 hs r

/-- C3 witness: the parts of C3 at concrete inputs (a New card graded
Easy, and the update formulas at d = 5, s = 2, r = 1/2). -/
theorem C3_stability_positive_witness :
    ((Dictation.fsrs_schedule 0 ⟨0, 0, 0, 0, 0, none, none⟩ 4).state ≠ 0 ∧
     0 < (Dictation.fsrs_schedule 0 ⟨0, 0, 0, 0, 0, none, none⟩ 4).stability) ∧
    0 < Dictation.next_recall_stability 5 2 (1 / 2) 3 ∧
    0 < Dictation.next_forget_stability 5 2 (1 / 2) :=
  ⟨C3_stability_positive.1 0 ⟨0, 0, 0, 0, 0, none, none⟩ 4 (Or.inl rfl),
   C3_stability_positive.2.2.1 5 2 (1 / 2) 3 (by norm_num) (by norm_num) (by norm_num)
     (by norm_num) (by norm_num),
   C3_stability_positive.2.2.2 5 2 (1 / 2) (by norm_num) (by norm_num) (by norm_num)
     (by norm_num) (by norm_num)⟩

/-- C10: a successful recall never decreases stability: under the claim
hypotheses the recall update is at least the prior stability, strictly
larger when r < 1, and exactly the prior stability at r = 1 in the
uncorrected (unfloored) dictation variant; the floored migration
variant also never decreases stability. -/
theorem C10_recall_never_decreases :
    ∀ (d s r : ℝ) (grade : ℤ), 1 ≤ d → d ≤ 10 → 0 < s → 0 ≤ r → r ≤ 1 →
      (grade = 2 ∨ grade = 3 ∨ grade = 4) →
      (s ≤ Dictation.next_recall_stability d s r grade ∧
       (r < 1 → s < Dictation.next_recall_stability d s r grade) ∧
       (r = 1 → Dictation.next_recall_stability d s r grade = s) ∧
       s ≤ MigrateFix.next_recall_stability d s r grade ∧
       (r < 1 → s < MigrateFix.next_recall_stability d s r grade)) := by
  intro d s r grade hd1 hd hs hr0 hr1 hg
  refine ⟨next_recall_stability_ge hd hs hr1 grade,
    fun hr => next_recall_stability_gt hd hs hr grade,
    ?_,
    mig_next_recall_stability_ge hd hs hr1 grade,
    fun hr => mig_next_recall_stability_gt hd hs hr grade⟩
  intro hr
  subst hr
  exact next_recall_stability_at_one grade

/-- C10 witness: C10 instantiated at d = 1, s = 1, r = 0, grade = Good. -/
theorem C10_recall_never_decreases_witness :
    (1 : ℝ) ≤ Dictation.next_recall_stability 1 1 0 3 ∧
    ((0 : ℝ) < 1 → (1 : ℝ) < Dictation.next_recall_stability 1 1 0 3) ∧
    ((0 : ℝ) = 1 → Dictation.next_recall_stability 1 1 0 3 = 1) ∧
    (1 : ℝ) ≤ MigrateFix.next_recall_stability 1 1 0 3 ∧
    ((0 : ℝ) < 1 → (1 : ℝ) < MigrateFix.next_recall_stability 1 1 0 3) :=
  C10_recall_never_decreases 1 1 0 3 (by norm_num) (by norm_num) (by norm_num)
    (by norm_num) (by norm_num) (Or.inr (Or.inl rfl))

/-- C1 counterexample: a New card scheduled with grade Again by the live
engine keeps lapses = 0 (not input lapses + 1) even though its state
becomes Learning, so the claim's conjunction fails. -/
theorem C1_counterexample :
    ¬ ((Dictation.fsrs_schedule 0 ⟨0, 0, 0, 0, 0, none, none⟩ 1).lapses =
        (⟨0, 0, 0, 0, 0, none, none⟩ : Card).lapses + 1 ∧
       (Dictation.fsrs_schedule 0 ⟨0, 0, 0, 0, 0, none, none⟩ 1).state = 1) := by
  intro hcon
  have h1 : (Dictation.fsrs_schedule 0 ⟨0, 0, 0, 0, 0, none, none⟩ 1).lapses = 0 := rfl
  have h2 : ((⟨0, 0, 0, 0, 0, none, none⟩ : Card).lapses : ℤ) = 0 := rfl
  rw [h1, h2] at hcon
  exact absurd hcon.1 (by decide)

/-- C1 amended: grading Again increments lapses and moves the card to
Learning for every already-reviewed card; on a New card the live
engine's schedule sets state to Learning but leaves lapses unchanged,
while the server-side session-complete path initializes lapses to 1 for
a skipped or incorrect first encounter. -/
theorem C1_again_lapses_amended :
    (∀ (now : ℚ) (card : Card), card.state ≠ 0 →
      (Dictation.fsrs_schedule now card 1).lapses = card.lapses + 1 ∧
      (Dictation.fsrs_schedule now card 1).state = 1) ∧
    (∀ (now : ℚ) (card : Card), card.state = 0 →
      (Dictation.fsrs_schedule now card 1).lapses = card.lapses ∧
      (Dictation.fsrs_schedule now card 1).state = 1) ∧
    (∀ (now : ℚ) (attempts : ℤ) (correct skipped : Bool),
      skipped = true ∨ correct = false →
      (Server.api_session_complete now none attempts correct skipped).lapses = 1 ∧
      (Server.api_session_complete now none attempts correct skipped).state = 1) := by
  refine ⟨?_, ?_, ?_⟩
  · intro now card h
    simp only [Dictation.fsrs_schedule]
    rw [if_neg h]
    norm_num
  · intro now card h
    simp only [Dictation.fsrs_schedule]
    rw [if_pos h]
    norm_num
  · intro now attempts correct skipped h
    rcases h with rfl | rfl
    · simp [Server.api_session_complete, Dictation.grade_from_attempts]
    · simp [Server.api_session_complete, Dictation.grade_from_attempts]

/-- C1 witness: the amended statement at concrete inputs (a Review card,
a New card, and a skipped first encounter on the server path). -/
theorem C1_again_lapses_amended_witness :
    ((Dictation.fsrs_schedule 0 ⟨5, 2, 2, 3, 4, none, none⟩ 1).lapses = 4 + 1 ∧
     (Dictation.fsrs_schedule 0 ⟨5, 2, 2, 3, 4, none, none⟩ 1).state = 1) ∧
    ((Dictation.fsrs_schedule 0 ⟨0, 0, 0, 0, 0, none, none⟩ 1).lapses = 0 ∧
     (Dictation.fsrs_schedule 0 ⟨0, 0, 0, 0, 0, none, none⟩ 1).state = 1) ∧
    ((Server.api_session_complete 0 none 1 false true).lapses = 1 ∧
     (Server.api_session_complete 0 none 1 false true).state = 1) :=
  ⟨C1_again_lapses_amended.1 0 ⟨5, 2, 2, 3, 4, none, none⟩ (by decide),
   C1_again_lapses_amended.2.1 0 ⟨0, 0, 0, 0, 0, none, none⟩ rfl,
   C1_again_lapses_amended.2.2 0 1 false true (Or.inl rfl)⟩

/-- C2 counterexample: the live engine's `next_forget_stability` has no
1.0 floor; at difficulty 1, stability 0.1 and retrievability 1 it
returns a value strictly below 1, so it differs from the floored form
the claim states. -/
theorem C2_no_floor_counterexample :
    Dictation.next_forget_stability 1 (1 / 10) 1 < 1 ∧
    Dictation.next_forget_stability 1 (1 / 10) 1 ≠
      max 1 (W 11 * (1 : ℝ) ^ (-W 12) * (((1 : ℝ) / 10 + 1) ^ W 13 - 1) *
        Real.exp (W 14 * (1 - 1))) := by
  have hval : Dictation.next_forget_stability 1 (1 / 10) 1 =
      W 11 * (((1 : ℝ) / 10 + 1) ^ W 13 - 1) := by
    simp only [Dictation.next_forget_stability]
    rw [Real.one_rpow]
    have h0 : W 14 * (1 - 1) = 0 := by ring
    rw [h0, Real.rpow_zero]
    ring
  have hb : ((1 : ℝ) / 10 + 1) ^ W 13 ≤ 11 / 10 := by
    have h1 : ((1 : ℝ) / 10 + 1) ^ W 13 ≤ ((1 : ℝ) / 10 + 1) ^ (1 : ℝ) :=
      Real.rpow_le_rpow_of_exponent_le (by norm_num) (by rw [W_13]; norm_num)
    rw [Real.rpow_one] at h1
    linarith
  have hlt : Dictation.next_forget_stability 1 (1 / 10) 1 < 1 := by
    rw [hval, W_11]
    nlinarith
  refine ⟨hlt, ne_of_lt (lt_of_lt_of_le hlt (le_max_left _ _))⟩

/-- C2 amended: the corrected migration variant equals the floored form
`max(1, W11 * d^(-W12) * ((s+1)^W13 - 1) * e^(W14*(1-r)))`, hence its
post-lapse stability is never below 1; the live dictation engine omits
the floor and can fall below 1. -/
theorem C2_forget_floor_amended :
    ∀ (d s r : ℝ), 1 ≤ d → d ≤ 10 → 0 < s → 0 ≤ r → r ≤ 1 →
      MigrateFix.next_forget_stability d s r =
        max 1 (W 11 * d ^ (-W 12) * ((s + 1) ^ W 13 - 1) * Real.exp (W 14 * (1 - r))) ∧
      1 ≤ MigrateFix.next_forget_stability d s r := by
  intro d s r hd1 hd hs hr0 hr1
  refine ⟨?_, ?_⟩
  · simp only [MigrateFix.next_forget_stability]
    norm_num
  · simp only [MigrateFix.next_forget_stability]
    exact le_trans (by norm_num) (le_max_left (1.0 : ℝ) _)

/-- C2 witness: the amended statement at d = 1, s = 1, r = 1. -/
theorem C2_forget_floor_amended_witness :
    (MigrateFix.next_forget_stability 1 1 1 =
      max 1 (W 11 * (1 : ℝ) ^ (-W 12) * (((1 : ℝ) + 1) ^ W 13 - 1) *
        Real.exp (W 14 * (1 - 1))) ∧
     1 ≤ MigrateFix.next_forget_stability 1 1 1) :=
  C2_forget_floor_amended 1 1 1 (by norm_num) (by norm_num) (by norm_num)
    (by norm_num) (by norm_num)

/-- Every pair collected by `due_pairs` comes from a non-New card whose
due date is set and has passed. -/
theorem due_pairs_mem {now : ℚ} {cards : List Card} {p : Card × ℝ}
    (hp : p ∈ Dictation.due_pairs now cards) :
    p.1.state ≠ 0 ∧ ∃ d, p.1.due = some d ∧ d ≤ now := by
  unfold Dictation.due_pairs at hp
  rcases List.mem_filterMap.mp hp with ⟨a, ha, hfa⟩
  by_cases h0 : a.state = 0
  · rw [if_pos h0] at hfa
    exact absurd hfa (by simp)
  · rw [if_neg h0] at hfa
    cases hdue : a.due with
    | none =>
      rw [hdue] at hfa
      exact absurd hfa (by simp)
    | some d =>
      rw [hdue] at hfa
      dsimp only at hfa
      by_cases hle : d ≤ now
      · rw [if_pos hle] at hfa
        have hpa : p = (a, Dictation.get_card_retrievability now a) :=
          (Option.some.inj hfa).symm
        subst hpa
        exact ⟨h0, d, hdue, hle⟩
      · rw [if_neg hle] at hfa
        exact absurd hfa (by simp)

/-- C6: when at least `limit` due candidates exist, urgency-ranked
selection returns exactly `limit` cards, all non-New with a passed due
date, and they are the prefix of a retrievability-sorted permutation of
the due candidates, every selected pair having retrievability at most
that of every unselected due pair. -/
theorem C6_due_selection :
    ∀ (now : ℚ) (cards : List Card) (limit : ℕ),
      limit ≤ (Dictation.due_pairs now cards).length →
      ((∀ c ∈ Dictation.get_due_cards now cards limit,
          c.state ≠ 0 ∧ ∃ d, c.due = some d ∧ d ≤ now) ∧
       (Dictation.get_due_cards now cards limit).length = limit ∧
       (∃ l : List (Card × ℝ), l.Perm (Dictation.due_pairs now cards) ∧
          l.Sorted Dictation.pairLE ∧
          Dictation.get_due_cards now cards limit = (l.take limit).map Prod.fst ∧
          ∀ p ∈ l.take limit, ∀ q ∈ l.drop limit, p.2 ≤ q.2)) := by
  intro now cards limit hlen
  have hperm : (Dictation.sorted_due_pairs now cards).Perm (Dictation.due_pairs now cards) :=
    List.perm_insertionSort _ _
  have hsort : (Dictation.sorted_due_pairs now cards).Sorted Dictation.pairLE :=
    List.sorted_insertionSort _ _
  have hlenL : limit ≤ (Dictation.sorted_due_pairs now cards).length := by
    rw [hperm.length_eq]
    exact hlen
  have htk : (((Dictation.sorted_due_pairs now cards).map Prod.fst).take limit).length
      = limit := by
    rw [List.length_take, List.length_map]
    exact min_eq_left hlenL
  have hres : Dictation.get_due_cards now cards limit =
      ((Dictation.sorted_due_pairs now cards).take limit).map Prod.fst := by
    simp only [Dictation.get_due_cards]
    rw [htk, Nat.sub_self, List.take_zero, List.append_nil]
    exact (List.map_take _ _ _).symm
  refine ⟨?_, ?_, Dictation.sorted_due_pairs now cards, hperm, hsort, hres, ?_⟩
  · intro c hc
    rw [hres] at hc
    rcases List.mem_map.mp hc with ⟨p, hpTake, rfl⟩
    have hpL : p ∈ Dictation.sorted_due_pairs now cards := List.mem_of_mem_take hpTake
    have hpD : p ∈ Dictation.due_pairs now cards := hperm.mem_iff.mp hpL
    exact due_pairs_mem hpD
  · rw [hres, List.length_map, List.length_take]
    exact min_eq_left hlenL
  · intro p hp q hq
    exact hsort.rel_of_mem_take_of_mem_drop hp hq

/-- C6 witness: the selection property at a single due Review card with
limit 1. -/
theorem C6_due_selection_witness :
    (∀ c ∈ Dictation.get_due_cards 0 [⟨1, 1, 1, 1, 0, some 0, some 0⟩] 1,
        c.state ≠ 0 ∧ ∃ d, c.due = some d ∧ d ≤ (0 : ℚ)) ∧
    (Dictation.get_due_cards 0 [⟨1, 1, 1, 1, 0, some 0, some 0⟩] 1).length = 1 ∧
    (∃ l : List (Card × ℝ),
        l.Perm (Dictation.due_pairs 0 [⟨1, 1, 1, 1, 0, some 0, some 0⟩]) ∧
        l.Sorted Dictation.pairLE ∧
        Dictation.get_due_cards 0 [⟨1, 1, 1, 1, 0, some 0, some 0⟩] 1 =
          (l.take 1).map Prod.fst ∧
        ∀ p ∈ l.take 1, ∀ q ∈ l.drop 1, p.2 ≤ q.2) :=
  C6_due_selection 0 [⟨1, 1, 1, 1, 0, some 0, some 0⟩] 1 (by decide)
